import Mathlib

/-!
Verification of the `db` component of freenome-build (`freenome_build/db.py`).

The development shallowly embeds the connection-data value object and the
orchestration functions of `db.py`.  Pure string manipulation (the
`DbConnectionData` connection-string derivations and the parsing done by
CPython's `urllib.parse.urlparse`, which `DbConnectionData.from_conn_string`
calls) is translated into executable Lean functions over `List Char` /
`String`.  Effectful orchestration code (docker/kubectl/psql/sqitch
invocations, polling loops) is embedded as functions from the outcomes of the
external calls (oracles) to the trace of actions performed and the
raised-or-returned result, following the source line by line.

All definitions are modelled on ASCII inputs; where a CPython primitive has
extra behaviour outside ASCII (e.g. `str.lower`, `str.isdigit`), the model is
faithful on ASCII and this is noted at the definition.
-/

namespace FreenomeBuild

/-- Python exception kinds raised by the code paths modelled here. -/
inductive PyErr where
  /-- `ValueError` (raised by `urllib.parse` on bad ports or unbalanced brackets). -/
  | valueError : PyErr
  /-- `TypeError` (raised on a call with an unexpected keyword argument). -/
  | typeError : PyErr
  /-- `RuntimeError` (raised by the waiters and by `_run_migrations`). -/
  | runtimeError : PyErr
  /-- `subprocess.CalledProcessError` carrying the captured stderr. -/
  | calledProcessError (stderr : String) : PyErr
  /-- `ContainerDoesNotExistError` (db.py:60), wrapping the original stderr. -/
  | containerDoesNotExistError (stderr : String) : PyErr
deriving DecidableEq

/-! ### Python string primitives (ASCII model) -/

/-- Python `str.partition(sep)` restricted to a one-character separator:
`some (before, after)` splits at the first occurrence of `sep`, `none` means
the separator does not occur. -/
def partitionList (sep : Char) : List Char → Option (List Char × List Char)
  | [] => none
  | c :: rest =>
    if c = sep then some ([], rest)
    else
      match partitionList sep rest with
      | none => none
      | some (a, b) => some (c :: a, b)

/-- Python `str.rpartition(sep)` for a one-character separator: splits at the
last occurrence of `sep`. -/
def rpartitionList (sep : Char) (l : List Char) : Option (List Char × List Char) :=
  match partitionList sep l.reverse with
  | none => none
  | some (a, b) => some (b.reverse, a.reverse)

/-- ASCII uppercase letter. -/
def isUpperAscii (c : Char) : Bool := 65 ≤ c.toNat && c.toNat ≤ 90

/-- ASCII lowercase letter. -/
def isLowerAscii (c : Char) : Bool := 97 ≤ c.toNat && c.toNat ≤ 122

/-- ASCII letter. -/
def isAlphaAscii (c : Char) : Bool := isUpperAscii c || isLowerAscii c

/-- ASCII digit `'0'..'9'`.  On ASCII this coincides with Python's
`c.isdigit() and c.isascii()`, which is exactly the check CPython's
`SplitResult.port` performs. -/
def isDigitChar (c : Char) : Bool := 48 ≤ c.toNat && c.toNat ≤ 57

/-- Python `str.lower` on one ASCII character. -/
def pyLowerChar (c : Char) : Char :=
  if isUpperAscii c then Char.ofNat (c.toNat + 32) else c

/-- Python `str.lower` (ASCII model). -/
def pyLower (l : List Char) : List Char := l.map pyLowerChar

/-- Python whitespace (the characters `str.strip()` removes, ASCII range). -/
def isPyWhitespace (c : Char) : Bool :=
  c.toNat = 32 || c.toNat = 9 || c.toNat = 10 || c.toNat = 13 || c.toNat = 11 || c.toNat = 12

/-- Python `str.strip()` with no argument (ASCII model). -/
def pyStripList (l : List Char) : List Char :=
  ((l.dropWhile isPyWhitespace).reverse.dropWhile isPyWhitespace).reverse

/-- Python `str.strip()` on a `String`. -/
def pyStrip (s : String) : String := (pyStripList s.data).asString

/-- Python's substring test `needle in hay`. -/
def containsSub (needle : List Char) : List Char → Bool
  | [] => needle.isEmpty
  | c :: rest => needle.isPrefixOf (c :: rest) || containsSub needle rest

/-- Decimal value of a digit string (most significant first), the value
`int(s, 10)` computes on a string of ASCII digits. -/
def digitsVal (l : List Char) : Nat :=
  l.foldl (fun a c => 10 * a + (c.toNat - 48)) 0

/-! ### `urllib.parse.urlparse`, modelled from CPython 3.11 `urllib/parse.py`

Only the pieces `DbConnectionData.from_conn_string` touches are modelled:
`urlsplit`/`urlparse` and the `username`/`password`/`hostname`/`port`
properties of the result.  The model follows the CPython source; the IPv6
validation of a balanced-bracketed host (`_check_bracketed_host`) and the
non-ASCII NFKC check of `_checknetloc` are not modelled (both are identity /
no-error on the bracket-free ASCII netlocs this development quantifies
over). -/

/-- The WHATWG C0-control-or-space class that `urlsplit` lstrips. -/
def isC0ControlOrSpace (c : Char) : Bool := c.toNat ≤ 32

/-- `_UNSAFE_URL_BYTES_TO_REMOVE = ["\t", "\r", "\n"]`: removed from anywhere
in the URL by `urlsplit`. -/
def isUnsafeUrlByte (c : Char) : Bool := c.toNat = 9 || c.toNat = 13 || c.toNat = 10

/-- The normalisation `urlsplit` applies before parsing: lstrip
C0-control/space, then remove tab/CR/LF everywhere. -/
def urlPreprocess (l : List Char) : List Char :=
  (l.dropWhile isC0ControlOrSpace).filter (fun c => !isUnsafeUrlByte c)

/-- `scheme_chars` from `urllib/parse.py`: letters, digits, `'+'`, `'-'`, `'.'`. -/
def isSchemeChar (c : Char) : Bool :=
  isAlphaAscii c || isDigitChar c || c = '+' || c = '-' || c = '.'

/-- The guard under which `urlsplit` recognises a scheme: the part before the
first `':'` is nonempty, starts with an ASCII letter and consists of scheme
characters. -/
def schemeOk (l : List Char) : Bool :=
  match l with
  | [] => false
  | c :: _ => isAlphaAscii c && l.all isSchemeChar

/-- The scheme-splitting step of `urlsplit`: returns `(scheme, rest)`, with
`scheme = []` when no scheme is recognised (the url is then left intact). -/
def splitSchemeF (url : List Char) : List Char × List Char :=
  match partitionList ':' url with
  | none => ([], url)
  | some (before, after) =>
    if schemeOk before then (pyLower before, after) else ([], url)

/-- `_splitnetloc` applied after the leading `"//"`: the netloc runs until the
first of `'/'`, `'?'`, `'#'`. -/
def notNetlocDelim (c : Char) : Bool := !(c = '/' || c = '?' || c = '#')

/-- Result of the modelled `urlparse`. -/
structure UrlParseResult where
  scheme : List Char
  netloc : List Char
  path : List Char
  params : List Char
  query : List Char
  fragment : List Char
deriving DecidableEq

/-- `uses_params` from `urllib/parse.py` (CPython 3.11). -/
def usesParams : List String :=
  ["", "ftp", "hdl", "prospero", "http", "imap", "https", "shttp", "rtsp",
   "rtsps", "rtspu", "sip", "sips", "mms", "sftp", "tel"]

/-- `_splitparams(url)`: split `url` into path and params at the first `';'`
at or after the last `'/'`. -/
def splitParams (url : List Char) : List Char × List Char :=
  match rpartitionList '/' url with
  | none =>
    match partitionList ';' url with
    | none => (url, [])
    | some (a, b) => (a, b)
  | some (pre, seg) =>
    match partitionList ';' seg with
    | none => (url, [])
    | some (a, b) => (pre ++ '/' :: a, b)

/-- `urlsplit(url)` (with the default `allow_fragments=True`), returning
scheme, netloc, path, query and fragment; `ValueError` on unbalanced
brackets in the netloc. -/
def urlsplitList (url0 : List Char) :
    Except PyErr (List Char × List Char × List Char × List Char × List Char) :=
  let url1 := urlPreprocess url0
  let sr := splitSchemeF url1
  let scheme := sr.1
  let url2 := sr.2
  match url2 with
  | '/' :: '/' :: afterSlashes =>
    let netloc := afterSlashes.takeWhile notNetlocDelim
    let url3 := afterSlashes.dropWhile notNetlocDelim
    if (netloc.contains '[' && !netloc.contains ']')
        || (netloc.contains ']' && !netloc.contains '[') then
      .error .valueError
    else
      let fr := match partitionList '#' url3 with
        | none => (url3, [])
        | some (a, b) => (a, b)
      let qr := match partitionList '?' fr.1 with
        | none => (fr.1, [])
        | some (a, b) => (a, b)
      .ok (scheme, netloc, qr.1, qr.2, fr.2)
  | _ =>
    let fr := match partitionList '#' url2 with
      | none => (url2, [])
      | some (a, b) => (a, b)
    let qr := match partitionList '?' fr.1 with
      | none => (fr.1, [])
      | some (a, b) => (a, b)
    .ok (scheme, [], qr.1, qr.2, fr.2)

/-- `urlparse(url)`: `urlsplit` plus the params split, which only applies to
schemes in `uses_params` (`"postgresql"` is not one of them). -/
def urlparseList (url : List Char) : Except PyErr UrlParseResult :=
  match urlsplitList url with
  | .error e => .error e
  | .ok (scheme, netloc, path0, query, fragment) =>
    if usesParams.contains scheme.asString && (partitionList ';' path0).isSome then
      let pr := splitParams path0
      .ok ⟨scheme, netloc, pr.1, pr.2, query, fragment⟩
    else
      .ok ⟨scheme, netloc, path0, [], query, fragment⟩

/-- `_userinfo`: `(username, password)` of a netloc; both `None` when the
netloc has no `'@'`, password `None` when the userinfo has no `':'`. -/
def pyUserinfo (netloc : List Char) : Option (List Char) × Option (List Char) :=
  match rpartitionList '@' netloc with
  | none => (none, none)
  | some (userinfo, _) =>
    match partitionList ':' userinfo with
    | none => (some userinfo, none)
    | some (u, pw) => (some u, some pw)

/-- `_hostinfo`: the raw `(hostname, port)` strings of a netloc (port `none`
when absent or empty). -/
def pyHostinfo (netloc : List Char) : List Char × Option (List Char) :=
  let hostinfo := match rpartitionList '@' netloc with
    | none => netloc
    | some (_, hi) => hi
  let hp : List Char × List Char :=
    match partitionList '[' hostinfo with
    | some (_, bracketed) =>
      let hr : List Char × List Char :=
        match partitionList ']' bracketed with
        | some (h, r) => (h, r)
        | none => (bracketed, [])
      let port := match partitionList ':' hr.2 with
        | some (_, p) => p
        | none => []
      (hr.1, port)
    | none =>
      match partitionList ':' hostinfo with
      | some (h, p) => (h, p)
      | none => (hostinfo, [])
  (hp.1, if hp.2 = [] then none else some hp.2)

/-- The `hostname` property: `None` when empty, otherwise lowercased up to a
`'%'` zone separator. -/
def pyHostname (netloc : List Char) : Option (List Char) :=
  let h := (pyHostinfo netloc).1
  if h = [] then none
  else
    match partitionList '%' h with
    | none => some (pyLower h)
    | some (pre, zone) => some (pyLower pre ++ '%' :: zone)

/-- The `port` property: `int(port)` when the raw port is nonempty ASCII
digits and in range `0..65535`, `ValueError` otherwise, `None` when absent. -/
def pyPort (netloc : List Char) : Except PyErr (Option Nat) :=
  match (pyHostinfo netloc).2 with
  | none => .ok none
  | some p =>
    if !p.isEmpty && p.all isDigitChar then
      if digitsVal p ≤ 65535 then .ok (some (digitsVal p)) else .error .valueError
    else
      .error .valueError

/-! ### `DbConnectionData` (db.py:26-57) -/

/-- Rendering of a Python value inside an f-string: `None` renders as the
four characters `"None"`, a string renders as itself. -/
def pyFStr : Option String → String
  | none => "None"
  | some s => s

/-- Rendering of an optional integer inside an f-string. -/
def pyFNat : Option Nat → String
  | none => "None"
  | some n => Nat.repr n

/-- Python truthiness of an optional string (`if self.password:`): `None` and
the empty string are falsy. -/
def pyTruthyStr : Option String → Bool
  | none => false
  | some s => !s.isEmpty

/-- `DbConnectionData` (db.py:26-33).  `host`, `user` and `password` are
optional because `from_conn_string` can populate them with `None`; `port` is
an optional natural number (the parsed port is an `int` or `None`).  The
`conn` attribute (always initialised to `None` and never consulted anywhere
in db.py) is omitted. -/
structure DbConnectionData where
  host : Option String
  port : Option Nat
  dbname : String
  user : Option String
  password : Option String
deriving DecidableEq

namespace DbConnectionData

/-- The `conn_string` property (db.py:40-46):
`f"postgresql://{user}"`, then `f":{password}"` when the password is truthy,
then `f"@{host}:{port}/{dbname}"`. -/
def conn_string (cd : DbConnectionData) : String :=
  "postgresql://" ++ pyFStr cd.user ++
    (if pyTruthyStr cd.password then ":" ++ pyFStr cd.password else "") ++
    "@" ++ pyFStr cd.host ++ ":" ++ pyFNat cd.port ++ "/" ++ cd.dbname

/-- The `sqitch_string` property (db.py:48-54): same as `conn_string` with the
`db:pg` scheme. -/
def sqitch_string (cd : DbConnectionData) : String :=
  "db:pg://" ++ pyFStr cd.user ++
    (if pyTruthyStr cd.password then ":" ++ pyFStr cd.password else "") ++
    "@" ++ pyFStr cd.host ++ ":" ++ pyFNat cd.port ++ "/" ++ cd.dbname

/-- `DbConnectionData.from_conn_string` (db.py:35-38):
`parsed = urlparse(conn_string)` followed by
`cls(parsed.hostname, parsed.port, parsed.path[1:], parsed.username,
parsed.password)`.  Accessing `parsed.port` can raise `ValueError`, as can
`urlsplit` itself on an unbalanced-bracket netloc. -/
def from_conn_string (conn_string : String) : Except PyErr DbConnectionData :=
  match urlparseList conn_string.data with
  | .error e => .error e
  | .ok parsed =>
    match pyPort parsed.netloc with
    | .error e => .error e
    | .ok port =>
      .ok ⟨(pyHostname parsed.netloc).map List.asString,
           port,
           (parsed.path.drop 1).asString,
           ((pyUserinfo parsed.netloc).1).map List.asString,
           ((pyUserinfo parsed.netloc).2).map List.asString⟩

end DbConnectionData

/-! ### Orchestration models (db.py:74-401)

The effectful functions are embedded as functions from the outcomes of their
external calls to the list of performed steps and the Python-level result.
An oracle argument `Option String` stands for the outcome of one
`run_and_log`/`subprocess` call: `none` for success, `some stderr` for a
`CalledProcessError` carrying that stderr. -/

/-- The steps these orchestration functions can perform. -/
inductive Step where
  /-- `start_local_database` / `start_k8s_database` as called by a `*_main`. -/
  | provision : Step
  /-- `_wait_for_db_cluster_to_start` as called by `start_k8s_test_database_main`. -/
  | waitDb : Step
  /-- `setup_db`. -/
  | setupDb : Step
  /-- `insert_test_data`. -/
  | insertTestData : Step
  /-- `print(conn_data)` on success. -/
  | printConn : Step
  /-- `stop_local_database` / `stop_k8s_database` (never reached below:
  the `start-*-test-db` mains contain no exception handler). -/
  | teardown : Step
deriving DecidableEq

/-- `'Nothing to deploy (empty plan)'` (db.py:95). -/
def nothingToDeployMsg : String := "Nothing to deploy (empty plan)"

/-- `_run_migrations` (db.py:74-98) as a function of (a) whether
`database/migrate` exists in the repo, (b) whether `database/sqitch` exists,
and (c) the outcome of the `sqitch deploy` call.  A `CalledProcessError`
whose stripped stderr is exactly `nothingToDeployMsg` is swallowed; any other
is re-raised. -/
def run_migrations_model (migrate_exists sqitch_exists : Bool)
    (sqitchResult : Option String) : Option PyErr :=
  if migrate_exists then none
  else if !sqitch_exists then some .runtimeError
  else
    match sqitchResult with
    | none => none
    | some stderr =>
      if pyStrip stderr = nothingToDeployMsg then none
      else some (.calledProcessError stderr)

/-- `setup_db` (db.py:246-266): run the setup SQL through `psql`
(oracle `psqlResult`), then `_run_migrations`. -/
def setup_db_model (psqlResult : Option String) (migrate_exists sqitch_exists : Bool)
    (sqitchResult : Option String) : Option PyErr :=
  match psqlResult with
  | some stderr => some (.calledProcessError stderr)
  | none => run_migrations_model migrate_exists sqitch_exists sqitchResult

/-- What `reset_data` ends up doing. -/
inductive ResetBehavior where
  /-- run the executable `database/reset_data` script. -/
  | runResetScript : ResetBehavior
  /-- the body of the second branch: run the script, then pipe
  `reset_data.sql` through psql (dead code, see `reset_data_model`). -/
  | runResetScriptAndSql : ResetBehavior
  /-- destructive default: drop database, drop user, re-run `setup_db`. -/
  | dropAndRecreate : ResetBehavior
deriving DecidableEq

/-- `reset_data` (db.py:296-320) as a function of which repo files exist.
Note the second branch: the source's `elif` at db.py:305 tests
`repo_reset_data_path` (the script path) again, not
`repo_reset_data_sql_path`, although its comment says it checks
`reset_data.sql`; the branch is therefore unreachable and `sql_exists` is
never consulted. -/
def reset_data_model (script_exists sql_exists : Bool) : ResetBehavior :=
  if script_exists then .runResetScript
  else if script_exists then .runResetScriptAndSql
  else .dropAndRecreate

/-- The exact stderr pattern `stop_local_database` compares against
(db.py:331-332). -/
def noSuchContainerMsg (image_name : String) : String :=
  "Error response from daemon: Cannot kill container: " ++ image_name ++
    ": No such container: " ++ image_name

/-- `stop_local_database` (db.py:323-340) as a function of the outcome of the
`docker kill` call: on `CalledProcessError` whose stripped stderr equals the
no-such-container pattern for `{dbname}_{port}` it raises
`ContainerDoesNotExistError`, otherwise it re-raises; on success it goes on
to `docker rm -f`.  Returns the commands issued and the raised error, if
any. -/
def stop_local_database_model (cd : DbConnectionData) (killResult : Option String) :
    List String × Option PyErr :=
  let image_name := cd.dbname ++ "_" ++ pyFNat cd.port
  let killCmd := "docker kill " ++ image_name
  match killResult with
  | none => ([killCmd, "docker rm -f " ++ image_name], none)
  | some stderr =>
    if pyStrip stderr = noSuchContainerMsg image_name then
      ([killCmd], some (.containerDoesNotExistError stderr))
    else
      ([killCmd], some (.calledProcessError stderr))

/-- `start_local_test_database_main` (db.py:370-382) as a function of which of
its straight-line steps fails first.  The source has no `try`/`except`: each
step runs only if all previous ones returned, and the first failure
propagates immediately.  No teardown step exists on any path. -/
def start_local_test_database_main_model (provisionFails setupFails insertFails : Bool) :
    List Step × Bool :=
  if provisionFails then ([.provision], true)
  else if setupFails then ([.provision, .setupDb], true)
  else if insertFails then ([.provision, .setupDb, .insertTestData], true)
  else ([.provision, .setupDb, .insertTestData, .printConn], false)

/-- `start_k8s_test_database_main` (db.py:385-401), on the `args.conn_data is
None` path, as a function of which straight-line step fails first.  As with
the local variant there is no exception handler and no teardown. -/
def start_k8s_test_database_main_model
    (provisionFails waitFails setupFails insertFails : Bool) : List Step × Bool :=
  if provisionFails then ([.provision], true)
  else if waitFails then ([.provision, .waitDb], true)
  else if setupFails then ([.provision, .waitDb, .setupDb], true)
  else if insertFails then ([.provision, .waitDb, .setupDb, .insertTestData], true)
  else ([.provision, .waitDb, .setupDb, .insertTestData, .printConn], false)

/-- The parameter names accepted by `start_k8s_database` (db.py:222-223):
`repo_path, project_name, dbname=None, user=None, password=None,
kube_pod_config=None`. -/
def start_k8s_database_params : List String :=
  ["repo_path", "project_name", "dbname", "user", "password", "kube_pod_config"]

/-- The keyword arguments `start_k8s_database_main` passes when
`args.conn_data` is set (db.py:357-359). -/
def start_k8s_database_main_conn_kwargs : List String :=
  ["kube_pod_config", "dbname", "user", "port", "password"]

/-- Python call semantics for keyword arguments: a call whose keyword set is
not contained in the callee's parameter names raises `TypeError` before the
body runs; otherwise the body's (trace, error) outcome is returned. -/
def pythonKwCall (params kwargs : List String) (body : List Step × Option PyErr) :
    List Step × Option PyErr :=
  if kwargs.all (fun k => params.contains k) then body else ([], some .typeError)

/-- `start_k8s_database_main` (db.py:355-362) as a function of whether a
connection string was supplied (`args.conn_data` set).  The body of
`start_k8s_database` begins by creating the pod (`kubectl create`,
db.py:233-234), modelled as the `provision` step. -/
def start_k8s_database_main_model (connDataGiven : Bool) : List Step × Option PyErr :=
  if connDataGiven then
    pythonKwCall start_k8s_database_params start_k8s_database_main_conn_kwargs
      ([.provision, .printConn], none)
  else
    ([.provision, .printConn], none)

instance : DecidableEq (Except PyErr DbConnectionData) := fun a b =>
  match a, b with
  | .ok x, .ok y => decidable_of_iff (x = y) (by simp)
  | .error x, .error y => decidable_of_iff (x = y) (by simp)
  | .ok _, .error _ => isFalse (fun h => Except.noConfusion h)
  | .error _, .ok _ => isFalse (fun h => Except.noConfusion h)

/-! ### Helper lemmas on the Python string primitives -/

theorem partitionList_of_not_mem {sep : Char} : ∀ {l : List Char}, sep ∉ l →
    partitionList sep l = none
  | [], _ => rfl
  | c :: rest, h => by
    have hc : ¬ c = sep := fun hc => h (by simp [hc])
    have hr : sep ∉ rest := fun hm => h (List.mem_cons_of_mem _ hm)
    simp only [partitionList, if_neg hc, partitionList_of_not_mem hr]

theorem partitionList_append {sep : Char} (ys : List Char) :
    ∀ {xs : List Char}, sep ∉ xs → partitionList sep (xs ++ sep :: ys) = some (xs, ys)
  | [], _ => by simp [partitionList]
  | c :: rest, h => by
    have hc : ¬ c = sep := fun hc => h (by simp [hc])
    have hr : sep ∉ rest := fun hm => h (List.mem_cons_of_mem _ hm)
    simp only [List.cons_append, partitionList, if_neg hc, List.append_eq,
      partitionList_append ys hr]

theorem rpartitionList_append {sep : Char} (xs : List Char) {ys : List Char} (h : sep ∉ ys) :
    rpartitionList sep (xs ++ sep :: ys) = some (xs, ys) := by
  have hrev : (xs ++ sep :: ys).reverse = ys.reverse ++ sep :: xs.reverse := by
    simp [List.reverse_append, List.reverse_cons, List.append_assoc]
  have h1 : sep ∉ ys.reverse := by simpa using h
  rw [rpartitionList, hrev, partitionList_append _ h1]
  simp

theorem rpartitionList_of_not_mem {sep : Char} {l : List Char} (h : sep ∉ l) :
    rpartitionList sep l = none := by
  rw [rpartitionList, partitionList_of_not_mem (by simpa using h)]

theorem takeWhile_append_of_neg {α : Type} {p : α → Bool} {y : α} (ys : List α) (hy : p y = false) :
    ∀ {xs : List α}, (∀ x ∈ xs, p x = true) → (xs ++ y :: ys).takeWhile p = xs
  | [], _ => by
    have hy' : ¬ p y = true := by simp [hy]
    simp [List.takeWhile_cons_of_neg hy']
  | c :: rest, h => by
    have hc : p c = true := h c (by simp)
    have hr : ∀ x ∈ rest, p x = true := fun x hx => h x (List.mem_cons_of_mem _ hx)
    simp only [List.cons_append, List.takeWhile_cons_of_pos hc,
      takeWhile_append_of_neg ys hy hr]

theorem dropWhile_append_of_neg {α : Type} {p : α → Bool} {y : α} (ys : List α) (hy : p y = false) :
    ∀ {xs : List α}, (∀ x ∈ xs, p x = true) → (xs ++ y :: ys).dropWhile p = y :: ys
  | [], _ => by
    have hy' : ¬ p y = true := by simp [hy]
    simp [List.dropWhile_cons_of_neg hy']
  | c :: rest, h => by
    have hc : p c = true := h c (by simp)
    have hr : ∀ x ∈ rest, p x = true := fun x hx => h x (List.mem_cons_of_mem _ hx)
    simp only [List.cons_append, List.dropWhile_cons_of_pos hc,
      dropWhile_append_of_neg ys hy hr]

theorem all_impl {α : Type} {p q : α → Bool} {l : List α} (h : ∀ c, p c = true → q c = true)
    (hl : l.all p = true) : l.all q = true := by
  simp only [List.all_eq_true] at *
  exact fun x hx => h x (hl x hx)

theorem map_eq_self_of {α : Type} {f : α → α} : ∀ {l : List α}, (∀ c ∈ l, f c = c) →
    l.map f = l
  | [], _ => rfl
  | c :: rest, h => by
    simp only [List.map_cons, h c (by simp),
      map_eq_self_of (fun x hx => h x (List.mem_cons_of_mem _ hx))]

/-! ### Decimal rendering: `digitsVal` recovers `Nat.repr` -/

theorem digitsVal_foldl (l : List Char) (a : Nat) :
    l.foldl (fun a c => 10 * a + (c.toNat - 48)) a = a * 10 ^ l.length + digitsVal l := by
  induction l generalizing a with
  | nil => simp [digitsVal]
  | cons c t ih =>
    simp only [digitsVal, List.foldl_cons, List.length_cons]
    rw [ih, ih (10 * 0 + (c.toNat - 48))]
    ring

theorem digitChar_toNat_sub {m : Nat} (h : m < 10) : (Nat.digitChar m).toNat - 48 = m := by
  interval_cases m <;> rfl

theorem digitChar_isDigit {m : Nat} (h : m < 10) : isDigitChar (Nat.digitChar m) = true := by
  interval_cases m <;> rfl

theorem toDigitsCore_val : ∀ (fuel n : Nat) (acc : List Char), n < fuel →
    digitsVal (Nat.toDigitsCore 10 fuel n acc) = n * 10 ^ acc.length + digitsVal acc := by
  intro fuel
  induction fuel with
  | zero => exact fun n acc h => absurd h (Nat.not_lt_zero n)
  | succ f ih =>
    intro n acc h
    have hd : digitsVal (Nat.digitChar (n % 10) :: acc) =
        (n % 10) * 10 ^ acc.length + digitsVal acc := by
      simp only [digitsVal, List.foldl_cons]
      rw [digitsVal_foldl, digitChar_toNat_sub (Nat.mod_lt n (by norm_num))]
      simp [digitsVal]
    simp only [Nat.toDigitsCore]
    by_cases h0 : n / 10 = 0
    · have hn : n < 10 := (Nat.div_eq_zero_iff (by norm_num)).mp h0
      rw [if_pos h0, hd, Nat.mod_eq_of_lt hn]
    · have hpos : 0 < n := by
        rcases Nat.eq_zero_or_pos n with h' | h'
        · exact absurd (by simp [h']) h0
        · exact h'
      have hlt : n / 10 < f := by
        have := Nat.div_lt_self hpos (by norm_num : (1:Nat) < 10)
        omega
      rw [if_neg h0, ih (n / 10) (Nat.digitChar (n % 10) :: acc) hlt, hd, List.length_cons]
      have hdm : (10 * (n / 10) + n % 10) * 10 ^ acc.length + digitsVal acc
          = n * 10 ^ acc.length + digitsVal acc := by rw [Nat.div_add_mod]
      rw [← hdm]
      ring

theorem toDigitsCore_all_digits : ∀ (fuel n : Nat) (acc : List Char),
    acc.all isDigitChar = true → (Nat.toDigitsCore 10 fuel n acc).all isDigitChar = true := by
  intro fuel
  induction fuel with
  | zero => exact fun n acc h => h
  | succ f ih =>
    intro n acc h
    have hd : (Nat.digitChar (n % 10) :: acc).all isDigitChar = true := by
      simp only [List.all_cons, Bool.and_eq_true]
      exact ⟨digitChar_isDigit (Nat.mod_lt n (by norm_num)), h⟩
    simp only [Nat.toDigitsCore]
    by_cases h0 : n / 10 = 0
    · rw [if_pos h0]; exact hd
    · rw [if_neg h0]; exact ih (n / 10) _ hd

theorem toDigitsCore_ne_nil : ∀ (fuel n : Nat) (acc : List Char), acc ≠ [] →
    Nat.toDigitsCore 10 fuel n acc ≠ [] := by
  intro fuel
  induction fuel with
  | zero => exact fun n acc h => h
  | succ f ih =>
    intro n acc h
    simp only [Nat.toDigitsCore]
    by_cases h0 : n / 10 = 0
    · rw [if_pos h0]; exact List.cons_ne_nil _ _
    · rw [if_neg h0]; exact ih (n / 10) _ (List.cons_ne_nil _ _)

theorem repr_data (n : Nat) : (Nat.repr n).data = Nat.toDigits 10 n := rfl

theorem digitsVal_repr (n : Nat) : digitsVal (Nat.repr n).data = n := by
  rw [repr_data]
  have h := toDigitsCore_val (n + 1) n [] (Nat.lt_succ_self n)
  simpa [digitsVal, Nat.toDigits] using h

theorem repr_all_digits (n : Nat) : (Nat.repr n).data.all isDigitChar = true := by
  rw [repr_data]
  exact toDigitsCore_all_digits _ _ _ rfl

theorem repr_ne_nil (n : Nat) : (Nat.repr n).data ≠ [] := by
  rw [repr_data]
  simp only [Nat.toDigits, Nat.toDigitsCore]
  by_cases h0 : n / 10 = 0
  · rw [if_pos h0]; exact List.cons_ne_nil _ _
  · rw [if_neg h0]; exact toDigitsCore_ne_nil _ _ _ (List.cons_ne_nil _ _)

/-! ### Character classes for the well-formedness hypotheses -/

/-- URI-safe characters: ASCII alphanumerics plus `'.'`, `'-'`, `'_'`. -/
def safeChar (c : Char) : Bool :=
  isAlphaAscii c || isDigitChar c || c = '.' || c = '-' || c = '_'

/-- Host characters: like `safeChar` but letters must be lowercase (urlparse
lowercases the hostname, so an uppercase host cannot round-trip). -/
def hostChar (c : Char) : Bool :=
  isLowerAscii c || isDigitChar c || c = '.' || c = '-' || c = '_'

/-- Every character a well-formed rendered netloc contains: safe characters
plus the separators `':'` and `'@'` and digits of the port. -/
def netlocSafe (c : Char) : Bool := safeChar c || c = ':' || c = '@'

theorem safeChar_toNat {c : Char} (h : safeChar c = true) :
    (65 ≤ c.toNat ∧ c.toNat ≤ 90) ∨ (97 ≤ c.toNat ∧ c.toNat ≤ 122) ∨
      (48 ≤ c.toNat ∧ c.toNat ≤ 57) ∨ c.toNat = 46 ∨ c.toNat = 45 ∨ c.toNat = 95 := by
  simp only [safeChar, isAlphaAscii, isUpperAscii, isLowerAscii, isDigitChar,
    Bool.or_eq_true, Bool.and_eq_true, decide_eq_true_eq] at h
  rcases h with ((((h | h) | h) | h) | h) | h
  · exact Or.inl h
  · exact Or.inr (Or.inl h)
  · exact Or.inr (Or.inr (Or.inl h))
  · subst h; exact Or.inr (Or.inr (Or.inr (Or.inl rfl)))
  · subst h; exact Or.inr (Or.inr (Or.inr (Or.inr (Or.inl rfl))))
  · subst h; exact Or.inr (Or.inr (Or.inr (Or.inr (Or.inr rfl))))

theorem netlocSafe_toNat {c : Char} (h : netlocSafe c = true) :
    (65 ≤ c.toNat ∧ c.toNat ≤ 90) ∨ (97 ≤ c.toNat ∧ c.toNat ≤ 122) ∨
      (48 ≤ c.toNat ∧ c.toNat ≤ 57) ∨ c.toNat = 46 ∨ c.toNat = 45 ∨ c.toNat = 95 ∨
      c.toNat = 58 ∨ c.toNat = 64 := by
  simp only [netlocSafe, Bool.or_eq_true, decide_eq_true_eq] at h
  rcases h with (h | h) | h
  · rcases safeChar_toNat h with h | h | h | h | h | h <;> simp [h]
  · subst h; simp
  · subst h; simp

theorem hostChar_safe {c : Char} (h : hostChar c = true) : safeChar c = true := by
  simp only [hostChar, Bool.or_eq_true] at h
  simp only [safeChar, isAlphaAscii, Bool.or_eq_true]
  rcases h with (((h | h) | h) | h) | h <;> simp [h]

theorem digitChar_safe {c : Char} (h : isDigitChar c = true) : safeChar c = true := by
  simp [safeChar, h]

theorem safeChar_netlocSafe {c : Char} (h : safeChar c = true) : netlocSafe c = true := by
  simp [netlocSafe, h]

theorem netlocSafe_props {c : Char} (h : netlocSafe c = true) :
    notNetlocDelim c = true ∧ isUnsafeUrlByte c = false ∧ c ≠ '[' ∧ c ≠ ']' := by
  have h1 : c ≠ '/' := fun he => absurd (he ▸ h) (by decide)
  have h2 : c ≠ '?' := fun he => absurd (he ▸ h) (by decide)
  have h3 : c ≠ '#' := fun he => absurd (he ▸ h) (by decide)
  have h4 : c ≠ '[' := fun he => absurd (he ▸ h) (by decide)
  have h5 : c ≠ ']' := fun he => absurd (he ▸ h) (by decide)
  refine ⟨by simp [notNetlocDelim, h1, h2, h3], ?_, h4, h5⟩
  have hn := netlocSafe_toNat h
  simp only [isUnsafeUrlByte, Bool.or_eq_false_iff, decide_eq_false_iff_not]
  omega

theorem safeChar_props {c : Char} (h : safeChar c = true) :
    c ≠ ':' ∧ c ≠ '@' ∧ c ≠ '%' ∧ c ≠ '#' ∧ c ≠ '?' := by
  exact ⟨fun he => absurd (he ▸ h) (by decide), fun he => absurd (he ▸ h) (by decide),
    fun he => absurd (he ▸ h) (by decide), fun he => absurd (he ▸ h) (by decide),
    fun he => absurd (he ▸ h) (by decide)⟩

theorem hostChar_toNat {c : Char} (h : hostChar c = true) :
    (97 ≤ c.toNat ∧ c.toNat ≤ 122) ∨ (48 ≤ c.toNat ∧ c.toNat ≤ 57) ∨
      c.toNat = 46 ∨ c.toNat = 45 ∨ c.toNat = 95 := by
  simp only [hostChar, isLowerAscii, isDigitChar, Bool.or_eq_true, Bool.and_eq_true,
    decide_eq_true_eq] at h
  rcases h with (((h | h) | h) | h) | h
  · exact Or.inl h
  · exact Or.inr (Or.inl h)
  · subst h; decide
  · subst h; decide
  · subst h; decide

theorem hostChar_lower {c : Char} (h : hostChar c = true) : pyLowerChar c = c := by
  have hn := hostChar_toNat h
  have hup : ¬ isUpperAscii c = true := by
    simp only [isUpperAscii, Bool.and_eq_true, decide_eq_true_eq, not_and]
    omega
  rw [pyLowerChar, if_neg hup]

theorem digitChar_not_colon {c : Char} (h : isDigitChar c = true) :
    c ≠ ':' ∧ c ≠ '@' ∧ c ≠ '/' := by
  exact ⟨fun he => absurd (he ▸ h) (by decide), fun he => absurd (he ▸ h) (by decide),
    fun he => absurd (he ▸ h) (by decide)⟩

/-! ### `urlsplit`/`urlparse` on a rendered connection string -/

theorem asString_data (s : String) : (s.data).asString = s := String.asString_toList s

theorem all_not_mem {p : Char → Bool} {l : List Char} {c : Char}
    (hl : l.all p = true) (hc : p c = false) : c ∉ l := by
  intro hm
  have := (List.all_eq_true.mp hl) c hm
  rw [hc] at this
  exact Bool.false_ne_true this

theorem contains_eq_false_of_not_mem {l : List Char} {a : Char} (h : a ∉ l) :
    l.contains a = false := by
  show l.elem a = false
  rw [List.elem_eq_mem, decide_eq_false h]

theorem urlPreprocess_render (netloc d : List Char)
    (hn : netloc.all netlocSafe = true) (hd : d.all safeChar = true) :
    urlPreprocess ("postgresql://".data ++ (netloc ++ '/' :: d))
      = "postgresql://".data ++ (netloc ++ '/' :: d) := by
  have hlit : ("postgresql://".data).all (fun c => !isUnsafeUrlByte c) = true := by decide
  have hall : ∀ c ∈ "postgresql://".data ++ (netloc ++ '/' :: d),
      (!isUnsafeUrlByte c) = true := by
    intro c hm
    rcases List.mem_append.mp hm with h | hrest
    · exact (List.all_eq_true.mp hlit) c h
    · rcases List.mem_append.mp hrest with h | hrest2
      · have := (List.all_eq_true.mp hn) c h
        simp [(netlocSafe_props this).2.1]
      · rcases List.mem_cons.mp hrest2 with h | h
        · subst h; decide
        · have h9 := safeChar_toNat ((List.all_eq_true.mp hd) c h)
          simp only [isUnsafeUrlByte, Bool.not_eq_true', Bool.or_eq_false_iff,
            decide_eq_false_iff_not]
          omega
  have hcons : "postgresql://".data ++ (netloc ++ '/' :: d)
      = 'p' :: ("ostgresql://".data ++ (netloc ++ '/' :: d)) := by
    have h1 : "postgresql://".data = 'p' :: "ostgresql://".data := by decide
    rw [h1]
    rfl
  rw [urlPreprocess, hcons, List.dropWhile_cons_of_neg (by decide), ← hcons]
  exact List.filter_eq_self.mpr hall

theorem splitScheme_render (A : List Char) :
    splitSchemeF ("postgresql://".data ++ A) = ("postgresql".data, '/' :: '/' :: A) := by
  have he : "postgresql://".data ++ A = "postgresql".data ++ ':' :: ('/' :: '/' :: A) := by
    have h1 : "postgresql://".data = "postgresql".data ++ [':', '/', '/'] := by decide
    rw [h1, List.append_assoc]
    rfl
  have hp : partitionList ':' ("postgresql".data ++ ':' :: ('/' :: '/' :: A))
      = some ("postgresql".data, '/' :: '/' :: A) := partitionList_append _ (by decide)
  have hs : schemeOk "postgresql".data = true := by decide
  have hl : pyLower "postgresql".data = "postgresql".data := by decide
  rw [he, splitSchemeF.eq_def, hp]
  simp [hs, hl]

theorem urlsplit_render (netloc d : List Char)
    (hn : netloc.all netlocSafe = true) (hd : d.all safeChar = true) :
    urlsplitList ("postgresql://".data ++ (netloc ++ '/' :: d))
      = .ok ("postgresql".data, netloc, '/' :: d, [], []) := by
  have hbra1 : netloc.contains '[' = false :=
    contains_eq_false_of_not_mem
      (fun hm => absurd ((List.all_eq_true.mp hn) _ hm) (by decide))
  have hbra2 : netloc.contains ']' = false :=
    contains_eq_false_of_not_mem
      (fun hm => absurd ((List.all_eq_true.mp hn) _ hm) (by decide))
  have htake : (netloc ++ '/' :: d).takeWhile notNetlocDelim = netloc :=
    takeWhile_append_of_neg d (by decide)
      (fun x hx => (netlocSafe_props ((List.all_eq_true.mp hn) x hx)).1)
  have hdrop : (netloc ++ '/' :: d).dropWhile notNetlocDelim = '/' :: d :=
    dropWhile_append_of_neg d (by decide)
      (fun x hx => (netlocSafe_props ((List.all_eq_true.mp hn) x hx)).1)
  have hfrag : partitionList '#' ('/' :: d) = none := by
    apply partitionList_of_not_mem
    intro hm
    rcases List.mem_cons.mp hm with h | h
    · exact absurd h (by decide)
    · exact absurd ((List.all_eq_true.mp hd) _ h) (by decide)
  have hquery : partitionList '?' ('/' :: d) = none := by
    apply partitionList_of_not_mem
    intro hm
    rcases List.mem_cons.mp hm with h | h
    · exact absurd h (by decide)
    · exact absurd ((List.all_eq_true.mp hd) _ h) (by decide)
  have hm1 : '[' ∉ netloc :=
    fun hm => absurd ((List.all_eq_true.mp hn) _ hm) (by decide)
  have hm2 : ']' ∉ netloc :=
    fun hm => absurd ((List.all_eq_true.mp hn) _ hm) (by decide)
  simp only [urlsplitList]
  rw [urlPreprocess_render netloc d hn hd, splitScheme_render]
  simp [htake, hdrop, hbra1, hbra2, hfrag, hquery, hm1, hm2]

theorem urlparse_render (netloc d : List Char)
    (hn : netloc.all netlocSafe = true) (hd : d.all safeChar = true) :
    urlparseList ("postgresql://".data ++ (netloc ++ '/' :: d))
      = .ok ⟨"postgresql".data, netloc, '/' :: d, [], [], []⟩ := by
  simp only [urlparseList]
  rw [urlsplit_render netloc d hn hd]
  simp
  intro hm
  exact absurd hm (by decide)

theorem pyUserinfo_pw (u p rest : List Char) (hu : ':' ∉ u) (hat : '@' ∉ rest) :
    pyUserinfo ((u ++ ':' :: p) ++ '@' :: rest) = (some u, some p) := by
  rw [pyUserinfo.eq_def, rpartitionList_append _ hat]
  simp [partitionList_append p hu]

theorem pyUserinfo_nopw (u rest : List Char) (hu : ':' ∉ u) (hat : '@' ∉ rest) :
    pyUserinfo (u ++ '@' :: rest) = (some u, none) := by
  rw [pyUserinfo.eq_def, rpartitionList_append _ hat]
  simp [partitionList_of_not_mem hu]

theorem pyHostinfo_split (x h t : List Char) (hat : '@' ∉ h ++ ':' :: t)
    (hbr : '[' ∉ h ++ ':' :: t) (hc : ':' ∉ h) (htne : t ≠ []) :
    pyHostinfo (x ++ '@' :: (h ++ ':' :: t)) = (h, some t) := by
  rw [pyHostinfo.eq_def, rpartitionList_append _ hat]
  simp [partitionList_of_not_mem hbr, partitionList_append t hc, htne]

theorem pyHostname_split (x h t : List Char) (hat : '@' ∉ h ++ ':' :: t)
    (hbr : '[' ∉ h ++ ':' :: t) (hc : ':' ∉ h) (htne : t ≠ [])
    (hne : h ≠ []) (hpc : '%' ∉ h) (hlow : ∀ c ∈ h, pyLowerChar c = c) :
    pyHostname (x ++ '@' :: (h ++ ':' :: t)) = some h := by
  rw [pyHostname.eq_def]
  rw [pyHostinfo_split x h t hat hbr hc htne]
  simp only [if_neg hne, partitionList_of_not_mem hpc]
  rw [show pyLower h = h from map_eq_self_of hlow]

theorem pyPort_split (x h t : List Char) (hat : '@' ∉ h ++ ':' :: t)
    (hbr : '[' ∉ h ++ ':' :: t) (hc : ':' ∉ h) (htne : t ≠ [])
    (hdig : t.all isDigitChar = true) (hval : digitsVal t ≤ 65535) :
    pyPort (x ++ '@' :: (h ++ ':' :: t)) = .ok (some (digitsVal t)) := by
  rw [pyPort.eq_def, pyHostinfo_split x h t hat hbr hc htne]
  have hemp : t.isEmpty = false := by
    cases t with
    | nil => exact absurd rfl htne
    | cons a l => rfl
  simp [hemp, hdig, hval]

/-! ### Round-trip of `conn_string` through `from_conn_string` -/

theorem from_conn_string_eq (s : String) (r : UrlParseResult) (p : Option Nat)
    (h : urlparseList s.data = .ok r) (hp : pyPort r.netloc = .ok p) :
    DbConnectionData.from_conn_string s
      = .ok ⟨(pyHostname r.netloc).map List.asString, p, (r.path.drop 1).asString,
             ((pyUserinfo r.netloc).1).map List.asString,
             ((pyUserinfo r.netloc).2).map List.asString⟩ := by
  unfold DbConnectionData.from_conn_string
  rw [h]
  show (match pyPort r.netloc with
    | .error e => (.error e : Except PyErr DbConnectionData)
    | .ok port => Except.ok ⟨(pyHostname r.netloc).map List.asString, port,
        (r.path.drop 1).asString, ((pyUserinfo r.netloc).1).map List.asString,
        ((pyUserinfo r.netloc).2).map List.asString⟩) = _
  rw [hp]

theorem from_conn_string_render_pw (U P H D : String) (n : Nat)
    (hU : U.data.all safeChar = true)
    (hP : P.data.all safeChar = true) (hPne : P.data ≠ [])
    (hH : H.data.all hostChar = true) (hHne : H.data ≠ [])
    (hD : D.data.all safeChar = true) (hn : n ≤ 65535) :
    DbConnectionData.from_conn_string
        (DbConnectionData.conn_string ⟨some H, some n, D, some U, some P⟩)
      = .ok ⟨some H, some n, D, some U, some P⟩ := by
  have hPstr : P ≠ "" := fun he => hPne (by subst he; rfl)
  have hPemp : P.isEmpty = false := by
    cases hb : P.isEmpty
    · rfl
    · exact absurd ((String.isEmpty_iff P).mp hb) hPstr
  have htr : pyTruthyStr (some P) = true := by simp [pyTruthyStr, hPemp]
  have hcolon : (":" : String).data = [':'] := rfl
  have hat : ("@" : String).data = ['@'] := rfl
  have hslash : ("/" : String).data = ['/'] := rfl
  have hdata : (DbConnectionData.conn_string ⟨some H, some n, D, some U, some P⟩).data
      = "postgresql://".data ++
        ((U.data ++ ':' :: (P.data ++ '@' :: (H.data ++ ':' :: (Nat.repr n).data)))
          ++ '/' :: D.data) := by
    simp only [DbConnectionData.conn_string, pyFStr, pyFNat, htr, if_true,
      String.data_append]
    simp [hcolon, hat, hslash, List.append_assoc]
  have hTd : (Nat.repr n).data.all isDigitChar = true := repr_all_digits n
  have hnl : (U.data ++ ':' :: (P.data ++ '@' :: (H.data ++ ':' :: (Nat.repr n).data))).all
      netlocSafe = true := by
    simp only [List.all_append, List.all_cons, Bool.and_eq_true]
    exact ⟨all_impl (fun c hc => safeChar_netlocSafe hc) hU, by decide,
      all_impl (fun c hc => safeChar_netlocSafe hc) hP, by decide,
      all_impl (fun c hc => safeChar_netlocSafe (hostChar_safe hc)) hH, by decide,
      all_impl (fun c hc => safeChar_netlocSafe (digitChar_safe hc)) hTd⟩
  have hUc : ':' ∉ U.data := fun hm => absurd ((List.all_eq_true.mp hU) _ hm) (by decide)
  have hrest : '@' ∉ H.data ++ ':' :: (Nat.repr n).data := by
    intro hm
    rcases List.mem_append.mp hm with h | h
    · exact absurd ((List.all_eq_true.mp hH) _ h) (by decide)
    · rcases List.mem_cons.mp h with h' | h'
      · exact absurd h' (by decide)
      · exact absurd ((List.all_eq_true.mp hTd) _ h') (by decide)
  have hbr : '[' ∉ H.data ++ ':' :: (Nat.repr n).data := by
    intro hm
    rcases List.mem_append.mp hm with h | h
    · exact absurd ((List.all_eq_true.mp hH) _ h) (by decide)
    · rcases List.mem_cons.mp h with h' | h'
      · exact absurd h' (by decide)
      · exact absurd ((List.all_eq_true.mp hTd) _ h') (by decide)
  have hHc : ':' ∉ H.data := fun hm => absurd ((List.all_eq_true.mp hH) _ hm) (by decide)
  have hTne : (Nat.repr n).data ≠ [] := repr_ne_nil n
  have hpc : '%' ∉ H.data := fun hm => absurd ((List.all_eq_true.mp hH) _ hm) (by decide)
  have hlow : ∀ c ∈ H.data, pyLowerChar c = c :=
    fun c hc => hostChar_lower ((List.all_eq_true.mp hH) _ hc)
  have hval : digitsVal (Nat.repr n).data ≤ 65535 := by rw [digitsVal_repr]; exact hn
  have hshape : U.data ++ ':' :: (P.data ++ '@' :: (H.data ++ ':' :: (Nat.repr n).data))
      = (U.data ++ ':' :: P.data) ++ '@' :: (H.data ++ ':' :: (Nat.repr n).data) := by
    simp [List.append_assoc]
  have hport : pyPort (U.data ++ ':' :: (P.data ++ '@' :: (H.data ++ ':' :: (Nat.repr n).data)))
      = .ok (some n) := by
    rw [hshape, pyPort_split _ _ _ hrest hbr hHc hTne hTd hval, digitsVal_repr]
  have hhost : pyHostname (U.data ++ ':' :: (P.data ++ '@' :: (H.data ++ ':' :: (Nat.repr n).data)))
      = some H.data := by
    rw [hshape]
    exact pyHostname_split _ _ _ hrest hbr hHc hTne hHne hpc hlow
  have hui : pyUserinfo (U.data ++ ':' :: (P.data ++ '@' :: (H.data ++ ':' :: (Nat.repr n).data)))
      = (some U.data, some P.data) := by
    rw [hshape]
    exact pyUserinfo_pw _ _ _ hUc hrest
  have hparse : urlparseList
      (DbConnectionData.conn_string ⟨some H, some n, D, some U, some P⟩).data
      = .ok ⟨"postgresql".data,
          U.data ++ ':' :: (P.data ++ '@' :: (H.data ++ ':' :: (Nat.repr n).data)),
          '/' :: D.data, [], [], []⟩ := by
    rw [hdata]
    exact urlparse_render _ _ hnl hD
  rw [from_conn_string_eq _ _ _ hparse hport]
  simp [hhost, hui, asString_data]

theorem from_conn_string_render_nopw (U H D : String) (n : Nat)
    (hU : U.data.all safeChar = true)
    (hH : H.data.all hostChar = true) (hHne : H.data ≠ [])
    (hD : D.data.all safeChar = true) (hn : n ≤ 65535)
    (pw : Option String) (hpw : pyTruthyStr pw = false) :
    DbConnectionData.from_conn_string
        (DbConnectionData.conn_string ⟨some H, some n, D, some U, pw⟩)
      = .ok ⟨some H, some n, D, some U, none⟩ := by
  have hcolon : (":" : String).data = [':'] := rfl
  have hat : ("@" : String).data = ['@'] := rfl
  have hslash : ("/" : String).data = ['/'] := rfl
  have hdata : (DbConnectionData.conn_string ⟨some H, some n, D, some U, pw⟩).data
      = "postgresql://".data ++
        ((U.data ++ '@' :: (H.data ++ ':' :: (Nat.repr n).data)) ++ '/' :: D.data) := by
    simp only [DbConnectionData.conn_string, pyFStr, pyFNat, hpw, Bool.false_eq_true,
      if_false, String.data_append]
    simp [hcolon, hat, hslash, List.append_assoc]
  have hTd : (Nat.repr n).data.all isDigitChar = true := repr_all_digits n
  have hnl : (U.data ++ '@' :: (H.data ++ ':' :: (Nat.repr n).data)).all
      netlocSafe = true := by
    simp only [List.all_append, List.all_cons, Bool.and_eq_true]
    exact ⟨all_impl (fun c hc => safeChar_netlocSafe hc) hU, by decide,
      all_impl (fun c hc => safeChar_netlocSafe (hostChar_safe hc)) hH, by decide,
      all_impl (fun c hc => safeChar_netlocSafe (digitChar_safe hc)) hTd⟩
  have hUc : ':' ∉ U.data := fun hm => absurd ((List.all_eq_true.mp hU) _ hm) (by decide)
  have hrest : '@' ∉ H.data ++ ':' :: (Nat.repr n).data := by
    intro hm
    rcases List.mem_append.mp hm with h | h
    · exact absurd ((List.all_eq_true.mp hH) _ h) (by decide)
    · rcases List.mem_cons.mp h with h' | h'
      · exact absurd h' (by decide)
      · exact absurd ((List.all_eq_true.mp hTd) _ h') (by decide)
  have hbr : '[' ∉ H.data ++ ':' :: (Nat.repr n).data := by
    intro hm
    rcases List.mem_append.mp hm with h | h
    · exact absurd ((List.all_eq_true.mp hH) _ h) (by decide)
    · rcases List.mem_cons.mp h with h' | h'
      · exact absurd h' (by decide)
      · exact absurd ((List.all_eq_true.mp hTd) _ h') (by decide)
  have hHc : ':' ∉ H.data := fun hm => absurd ((List.all_eq_true.mp hH) _ hm) (by decide)
  have hTne : (Nat.repr n).data ≠ [] := repr_ne_nil n
  have hpc : '%' ∉ H.data := fun hm => absurd ((List.all_eq_true.mp hH) _ hm) (by decide)
  have hlow : ∀ c ∈ H.data, pyLowerChar c = c :=
    fun c hc => hostChar_lower ((List.all_eq_true.mp hH) _ hc)
  have hval : digitsVal (Nat.repr n).data ≤ 65535 := by rw [digitsVal_repr]; exact hn
  have hport : pyPort (U.data ++ '@' :: (H.data ++ ':' :: (Nat.repr n).data))
      = .ok (some n) := by
    rw [pyPort_split _ _ _ hrest hbr hHc hTne hTd hval, digitsVal_repr]
  have hhost : pyHostname (U.data ++ '@' :: (H.data ++ ':' :: (Nat.repr n).data))
      = some H.data := pyHostname_split _ _ _ hrest hbr hHc hTne hHne hpc hlow
  have hui : pyUserinfo (U.data ++ '@' :: (H.data ++ ':' :: (Nat.repr n).data))
      = (some U.data, none) := pyUserinfo_nopw _ _ hUc hrest
  have hparse : urlparseList
      (DbConnectionData.conn_string ⟨some H, some n, D, some U, pw⟩).data
      = .ok ⟨"postgresql".data,
          U.data ++ '@' :: (H.data ++ ':' :: (Nat.repr n).data),
          '/' :: D.data, [], [], []⟩ := by
    rw [hdata]
    exact urlparse_render _ _ hnl hD
  rw [from_conn_string_eq _ _ _ hparse hport]
  simp [hhost, hui, asString_data]

/-! ### `_wait_for_db_cluster_to_start` (db.py:101-114)

The probe is `psycopg2.connect`; `probe i` tells whether the `i`-th attempt
succeeds and `dur i` is the wall-clock time that attempt itself takes (a
connection attempt can take arbitrarily long before raising
`OperationalError`).  Each failed attempt additionally sleeps
`recheck_interval`.  The loop runs `int(max_wait_time/recheck_interval) + 1`
times (exact rational division here; Python's float division can differ by
one ulp, which moves the attempt count by at most one and is irrelevant to
the claims below). -/

/-- `MAX_DB_WAIT_TIME = 10` (db.py:20). -/
def MAX_DB_WAIT_TIME : ℚ := 10

/-- Outcome of the local readiness wait, with total elapsed wall-clock time. -/
inductive DbWaitResult where
  | connected (elapsed : ℚ) : DbWaitResult
  | timedOut (elapsed : ℚ) : DbWaitResult
deriving DecidableEq

/-- `range(int(max_wait_time/recheck_interval)+1)` (db.py:103): the number of
probe attempts. -/
def dbWaitAttempts (max_wait recheck : ℚ) : ℕ := (⌊max_wait / recheck⌋).toNat + 1

/-- The loop of `_wait_for_db_cluster_to_start` (db.py:103-112): attempt the
connection (elapsing `dur i`); on success return, on failure sleep `recheck`
and continue; raise when the attempts are exhausted. -/
def dbWaitLoop (probe : ℕ → Bool) (dur : ℕ → ℚ) (recheck : ℚ) : ℕ → ℕ → DbWaitResult
  | 0, _ => .timedOut 0
  | fuel + 1, i =>
    if probe i then .connected (dur i)
    else
      match dbWaitLoop probe dur recheck fuel (i + 1) with
      | .connected t => .connected (dur i + recheck + t)
      | .timedOut t => .timedOut (dur i + recheck + t)

/-- `_wait_for_db_cluster_to_start` (db.py:101-114): `.timedOut` is the
`RuntimeError` raised after the loop (the spec's `TimeoutError`). -/
def wait_for_db_cluster_to_start (probe : ℕ → Bool) (dur : ℕ → ℚ)
    (max_wait recheck : ℚ) : DbWaitResult :=
  dbWaitLoop probe dur recheck (dbWaitAttempts max_wait recheck) 0

theorem dbWaitLoop_all_false {probe : ℕ → Bool} {dur : ℕ → ℚ} {recheck : ℚ}
    (hp : ∀ i, probe i = false) (hd : ∀ i, dur i = 0) :
    ∀ fuel i, dbWaitLoop probe dur recheck fuel i = .timedOut (fuel * recheck) := by
  intro fuel
  induction fuel with
  | zero => intro i; simp [dbWaitLoop]
  | succ f ih =>
    intro i
    rw [dbWaitLoop, if_neg (by simp [hp i]), ih (i + 1), hd i]
    have e : (0 : ℚ) + recheck + (f : ℚ) * recheck = ((f + 1 : ℕ) : ℚ) * recheck := by
      push_cast
      ring
    show DbWaitResult.timedOut (0 + recheck + (f : ℚ) * recheck) = _
    rw [e]

/-! ### `_wait_for_container` (db.py:117-141)

`status i` is the `kubectl get pod` output and `events i` the list of event
messages at iteration `i`.  The timestamp bookkeeping in the source only
controls logging and does not affect control flow. -/

/-- `MAX_CONTAINER_CHECKS = 600` (db.py:23). -/
def MAX_CONTAINER_CHECKS : ℕ := 600

/-- Outcome of the pod probe. -/
inductive ContainerWaitResult where
  | running (iter : ℕ) : ContainerWaitResult
  | failed (iter : ℕ) (msg : String) : ContainerWaitResult
  | timedOut : ContainerWaitResult
deriving DecidableEq

/-- The first event whose message contains `"Error"`, the event on which
`_wait_for_container` raises (db.py:136-137). -/
def findErrorEvent (events : List String) : Option String :=
  events.find? (fun m => containsSub "Error".data m.data)

/-- The loop of `_wait_for_container` (db.py:123-140): check the pod status
for the substring `"Running"` first and return if present; otherwise raise on
the first event message containing `"Error"`; else sleep and repeat. -/
def containerWaitLoop (status : ℕ → String) (events : ℕ → List String) :
    ℕ → ℕ → ContainerWaitResult
  | 0, _ => .timedOut
  | fuel + 1, i =>
    if containsSub "Running".data (status i).data then .running i
    else
      match findErrorEvent (events i) with
      | some m => .failed i m
      | none => containerWaitLoop status events fuel (i + 1)

/-- `_wait_for_container` (db.py:117-141). -/
def wait_for_container (status : ℕ → String) (events : ℕ → List String) :
    ContainerWaitResult :=
  containerWaitLoop status events MAX_CONTAINER_CHECKS 0

theorem containerWaitLoop_reaches_error (status : ℕ → String) (events : ℕ → List String)
    (m : String) : ∀ (k fuel i : ℕ), k < fuel →
    (∀ j, j ≤ k → containsSub "Running".data (status (i + j)).data = false) →
    (∀ j, j < k → findErrorEvent (events (i + j)) = none) →
    findErrorEvent (events (i + k)) = some m →
    containerWaitLoop status events fuel i = .failed (i + k) m := by
  intro k
  induction k with
  | zero =>
    intro fuel i hk h1 h2 h3
    match fuel, hk with
    | f + 1, _ =>
      have hs : containsSub "Running".data (status i).data = false := by
        simpa using h1 0 (Nat.le_refl 0)
      have he : findErrorEvent (events i) = some m := by simpa using h3
      rw [containerWaitLoop, if_neg (by simp [hs]), he]
      simp
  | succ k ih =>
    intro fuel i hk h1 h2 h3
    match fuel, hk with
    | f + 1, hk =>
      have hs : containsSub "Running".data (status i).data = false := by
        simpa using h1 0 (Nat.zero_le _)
      have he : findErrorEvent (events i) = none := by
        simpa using h2 0 (Nat.succ_pos k)
      rw [containerWaitLoop, if_neg (by simp [hs]), he]
      have hrec := ih f (i + 1) (by omega)
        (fun j hj => by
          have e : i + 1 + j = i + (j + 1) := by omega
          rw [e]
          exact h1 (j + 1) (by omega))
        (fun j hj => by
          have e : i + 1 + j = i + (j + 1) := by omega
          rw [e]
          exact h2 (j + 1) (by omega))
        (by
          have e : i + 1 + k = i + (k + 1) := by omega
          rw [e]
          exact h3)
      rw [hrec]
      have e : i + 1 + k = i + (k + 1) := by omega
      rw [e]

theorem containerWaitLoop_running_status (status : ℕ → String) (events : ℕ → List String) :
    ∀ fuel i r, containerWaitLoop status events fuel i = .running r →
    containsSub "Running".data (status r).data = true := by
  intro fuel
  induction fuel with
  | zero =>
    intro i r h
    exact absurd h (by simp [containerWaitLoop])
  | succ f ih =>
    intro i r h
    by_cases hs : containsSub "Running".data (status i).data = true
    · rw [containerWaitLoop, if_pos (by simp [hs])] at h
      cases h
      exact hs
    · rw [containerWaitLoop, if_neg (by simpa using hs)] at h
      cases hfe : findErrorEvent (events i) with
      | some m => rw [hfe] at h; exact absurd h (by simp)
      | none => rw [hfe] at h; exact ih (i + 1) r h

/-! ### Claim theorems -/

/-- Claim C1, counterexample: the claim as stated fails.  For the
`DbConnectionData` with host `"LocalHost"` (and a non-empty password),
parsing `conn_string` back with `from_conn_string` does not recover the host:
`urlparse` lowercases the hostname, so the round trip returns
`"localhost"`. -/
theorem c1_roundtrip_counterexample :
    DbConnectionData.from_conn_string
        (DbConnectionData.conn_string
          ⟨some "LocalHost", some 5432, "db", some "user", some "pw"⟩)
      ≠ .ok ⟨some "LocalHost", some 5432, "db", some "user", some "pw"⟩
    ∧ DbConnectionData.from_conn_string
        (DbConnectionData.conn_string
          ⟨some "LocalHost", some 5432, "db", some "user", some "pw"⟩)
      = .ok ⟨some "localhost", some 5432, "db", some "user", some "pw"⟩ :=
  ⟨by decide, by decide⟩

/-- Claim C1 (amended): for every `DbConnectionData` whose password is
present (non-empty) and whose fields are URI-well-formed — host non-empty
over lowercase alphanumerics and `.-_`, user/password/dbname over
alphanumerics and `.-_` with the password non-empty, port at most 65535 —
parsing the string produced by `conn_string` back with `from_conn_string`
recovers host, port, dbname, user and password exactly. -/
theorem c1_roundtrip_wellformed (U P H D : String) (n : Nat)
    (hU : U.data.all safeChar = true)
    (hP : P.data.all safeChar = true) (hPne : P.data ≠ [])
    (hH : H.data.all hostChar = true) (hHne : H.data ≠ [])
    (hD : D.data.all safeChar = true) (hn : n ≤ 65535) :
    DbConnectionData.from_conn_string
        (DbConnectionData.conn_string ⟨some H, some n, D, some U, some P⟩)
      = .ok ⟨some H, some n, D, some U, some P⟩ :=
  from_conn_string_render_pw U P H D n hU hP hPne hH hHne hD hn

/-- Witness for C1 at a concrete well-formed connection. -/
theorem c1_roundtrip_wellformed_witness :
    DbConnectionData.from_conn_string
        (DbConnectionData.conn_string
          ⟨some "localhost", some 5432, "mydb", some "usr", some "pw"⟩)
      = .ok ⟨some "localhost", some 5432, "mydb", some "usr", some "pw"⟩ :=
  c1_roundtrip_wellformed "usr" "pw" "localhost" "mydb" 5432
    (by decide) (by decide) (by decide) (by decide) (by decide) (by decide) (by decide)

/-- Claim C2: the start-local-test-db and start-k8s-test-db flows contain no
exception handler, so when `setup_db` (or any later step) raises after the
instance was provisioned, the error propagates with no teardown of the
provisioned instance on any path (the teardown step never occurs in any
trace), contrary to the claim. -/
theorem c2_no_teardown_on_failure :
    (start_local_test_database_main_model false true false).2 = true
    ∧ Step.provision ∈ (start_local_test_database_main_model false true false).1
    ∧ Step.teardown ∉ (start_local_test_database_main_model false true false).1
    ∧ (start_k8s_test_database_main_model false false true false).2 = true
    ∧ Step.provision ∈ (start_k8s_test_database_main_model false false true false).1
    ∧ Step.teardown ∉ (start_k8s_test_database_main_model false false true false).1
    ∧ (∀ b1 b2 b3 : Bool,
        Step.teardown ∉ (start_local_test_database_main_model b1 b2 b3).1)
    ∧ (∀ b1 b2 b3 b4 : Bool,
        Step.teardown ∉ (start_k8s_test_database_main_model b1 b2 b3 b4).1) := by
  decide

/-- Claim C3, counterexample: the wall-clock bound fails.  With
`max_wait = 1` and `recheck = 1`, a probe that never succeeds but takes 5
seconds per connection attempt makes the waiter raise only after 12 seconds
of wall-clock time, exceeding `max_wait + recheck = 2`: the loop bound is a
count of attempts (db.py:103), not a wall-clock deadline. -/
theorem c3_wallclock_counterexample :
    wait_for_db_cluster_to_start (fun _ => false) (fun _ => 5) 1 1 = .timedOut 12
    ∧ ¬ ((12 : ℚ) ≤ 1 + 1) := by
  have ha : dbWaitAttempts 1 1 = 2 := by
    rw [dbWaitAttempts]
    norm_num
  constructor
  · rw [wait_for_db_cluster_to_start, ha]
    simp [dbWaitLoop]
    norm_num
  · norm_num

/-- Claim C3 (amended): for every probe that never succeeds, the waiter
raises its timeout error (`RuntimeError`, the spec's `TimeoutError`) after
exactly `⌊maxWait/interval⌋ + 1` failed attempts; when the probe calls
themselves take no time the elapsed time equals that attempt count times the
interval, which is at most `maxWait + interval`.  The deadline is an
attempt-count proxy: time spent inside the probe calls is not counted, so
wall-clock time can exceed the bound (see the counterexample). -/
theorem c3_timeout_attempt_bound (probe : ℕ → Bool) (dur : ℕ → ℚ)
    (max_wait recheck : ℚ)
    (hp : ∀ i, probe i = false) (hd : ∀ i, dur i = 0)
    (hr : 0 < recheck) (hm : 0 ≤ max_wait) :
    wait_for_db_cluster_to_start probe dur max_wait recheck
      = .timedOut (dbWaitAttempts max_wait recheck * recheck)
    ∧ (dbWaitAttempts max_wait recheck : ℚ) * recheck ≤ max_wait + recheck := by
  constructor
  · exact dbWaitLoop_all_false hp hd _ 0
  · have h0 : (0 : ℤ) ≤ ⌊max_wait / recheck⌋ :=
      Int.floor_nonneg.mpr (div_nonneg hm hr.le)
    have hq : ((⌊max_wait / recheck⌋.toNat : ℕ) : ℚ)
        = ((⌊max_wait / recheck⌋ : ℤ) : ℚ) := by
      rw [← Int.cast_natCast, Int.toNat_of_nonneg h0]
    have hcast : ((⌊max_wait / recheck⌋.toNat + 1 : ℕ) : ℚ)
        = (⌊max_wait / recheck⌋ : ℚ) + 1 := by
      rw [Nat.cast_add, Nat.cast_one, hq]
    rw [dbWaitAttempts, hcast]
    have hle : ((⌊max_wait / recheck⌋ : ℚ) + 1) * recheck
        ≤ (max_wait / recheck + 1) * recheck := by
      apply mul_le_mul_of_nonneg_right _ hr.le
      exact add_le_add_right (Int.floor_le _) 1
    calc ((⌊max_wait / recheck⌋ : ℚ) + 1) * recheck
        ≤ (max_wait / recheck + 1) * recheck := hle
      _ = max_wait + recheck := by
        rw [add_mul, one_mul, div_mul_cancel₀ _ (ne_of_gt hr)]

/-- Witness for C3 at the source's default parameters (`max_wait = 10`,
`recheck = 0.2`). -/
theorem c3_timeout_attempt_bound_witness :
    wait_for_db_cluster_to_start (fun _ => false) (fun _ => 0) 10 (1 / 5)
      = .timedOut (dbWaitAttempts 10 (1 / 5) * (1 / 5))
    ∧ (dbWaitAttempts 10 (1 / 5) : ℚ) * (1 / 5) ≤ 10 + 1 / 5 :=
  c3_timeout_attempt_bound (fun _ => false) (fun _ => 0) 10 (1 / 5)
    (fun _ => rfl) (fun _ => rfl) (by norm_num) (by norm_num)

/-- Claim C4: in `_wait_for_container`, as long as the status never reported
`"Running"` so far, the first event whose message contains `"Error"` makes
the probe abort fatally at that very iteration — regardless of the statuses
and events at all later iterations, so even a pod that would report
`"Running"` afterward cannot rescue it — and the probe returns successfully
only when the status at the returning iteration contains `"Running"`. -/
theorem c4_error_event_fatal :
    (∀ (status : ℕ → String) (events : ℕ → List String) (k : ℕ) (m : String),
      k < MAX_CONTAINER_CHECKS →
      (∀ j, j ≤ k → containsSub "Running".data (status j).data = false) →
      (∀ j, j < k → findErrorEvent (events j) = none) →
      findErrorEvent (events k) = some m →
      wait_for_container status events = .failed k m)
    ∧ (∀ (status : ℕ → String) (events : ℕ → List String) (r : ℕ),
      wait_for_container status events = .running r →
      containsSub "Running".data (status r).data = true) := by
  constructor
  · intro status events k m hk h1 h2 h3
    have h := containerWaitLoop_reaches_error status events m k MAX_CONTAINER_CHECKS 0 hk
      (fun j hj => by simpa using h1 j hj)
      (fun j hj => by simpa using h2 j hj)
      (by simpa using h3)
    simpa [wait_for_container] using h
  · intro status events r h
    exact containerWaitLoop_running_status status events MAX_CONTAINER_CHECKS 0 r h

/-- Witness for C4: at iteration 0 the status is `"Pending"` and an
`"Error"` event is observed, while the status at every later iteration would
be `"Running"`; the probe still aborts fatally at iteration 0. -/
theorem c4_error_event_fatal_witness :
    wait_for_container (fun j => if j = 0 then "Pending" else "Running")
        (fun j => if j = 0 then ["Error: ImagePullBackOff"] else [])
      = .failed 0 "Error: ImagePullBackOff" :=
  c4_error_event_fatal.1 _ _ 0 _ (by decide)
    (fun j hj => by
      have hj0 : j = 0 := Nat.le_zero.mp hj
      subst hj0
      decide)
    (fun j hj => absurd hj (Nat.not_lt_zero j))
    (by decide)

/-- Claim C5: the `elif` at db.py:305 re-tests the `reset_data` script path
instead of the `reset_data.sql` path (its own comment says it checks
`reset_data.sql`), so the SQL branch is unreachable: with no `reset_data`
script and an existing `reset_data.sql`, `reset_data` takes the destructive
drop-database/drop-user/`setup_db` fallback, and the presence of the SQL
file never influences the behaviour. -/
theorem c5_reset_data_sql_branch_dead :
    reset_data_model false true = .dropAndRecreate
    ∧ (∀ b : Bool, reset_data_model false b = .dropAndRecreate) := by
  decide

/-- Claim C6: `stop_local_database` kills and removes the instance keyed
`{dbname}_{port}`; when `docker kill` fails with exactly the
no-such-container message for that name it raises the distinguished
`ContainerDoesNotExistError`, and any other failure propagates unchanged as
the original `CalledProcessError`. -/
theorem c6_stop_local_distinguishes_missing (cd : DbConnectionData) (s : String) :
    stop_local_database_model cd none
      = (["docker kill " ++ (cd.dbname ++ "_" ++ pyFNat cd.port),
          "docker rm -f " ++ (cd.dbname ++ "_" ++ pyFNat cd.port)], none)
    ∧ (pyStrip s = noSuchContainerMsg (cd.dbname ++ "_" ++ pyFNat cd.port) →
        stop_local_database_model cd (some s)
          = (["docker kill " ++ (cd.dbname ++ "_" ++ pyFNat cd.port)],
             some (.containerDoesNotExistError s)))
    ∧ (pyStrip s ≠ noSuchContainerMsg (cd.dbname ++ "_" ++ pyFNat cd.port) →
        stop_local_database_model cd (some s)
          = (["docker kill " ++ (cd.dbname ++ "_" ++ pyFNat cd.port)],
             some (.calledProcessError s))) := by
  refine ⟨rfl, fun h => ?_, fun h => ?_⟩
  · simp [stop_local_database_model, h]
  · simp [stop_local_database_model, h]

/-- Witness for C6: a matching no-such-container stderr (with trailing
whitespace stripped away) maps to `ContainerDoesNotExistError`, a different
stderr propagates as `CalledProcessError`. -/
theorem c6_stop_local_distinguishes_missing_witness :
    stop_local_database_model ⟨some "h", some 5432, "mydb", some "u", none⟩
        (some ("Error response from daemon: Cannot kill container: mydb_5432: " ++
          "No such container: mydb_5432\n"))
      = (["docker kill mydb_5432"],
         some (.containerDoesNotExistError
          ("Error response from daemon: Cannot kill container: mydb_5432: " ++
            "No such container: mydb_5432\n")))
    ∧ stop_local_database_model ⟨some "h", some 5432, "mydb", some "u", none⟩ (some "boom")
      = (["docker kill mydb_5432"], some (.calledProcessError "boom")) := by
  constructor
  · have h := (c6_stop_local_distinguishes_missing
      ⟨some "h", some 5432, "mydb", some "u", none⟩
      ("Error response from daemon: Cannot kill container: mydb_5432: " ++
        "No such container: mydb_5432\n")).2.1 (by decide)
    exact h.trans (by decide)
  · have h := (c6_stop_local_distinguishes_missing
      ⟨some "h", some 5432, "mydb", some "u", none⟩ "boom").2.2 (by decide)
    exact h.trans (by decide)

/-- Claim C7: when the sqitch deploy exits nonzero with stripped stderr
exactly `"Nothing to deploy (empty plan)"`, `_run_migrations` swallows the
error and returns normally (and so does `setup_db`, making a second run on
an already-migrated schema succeed); any other nonzero exit propagates as a
fatal error carrying the captured stderr. -/
theorem c7_nothing_to_deploy_swallowed (s : String) :
    (pyStrip s = nothingToDeployMsg →
      run_migrations_model false true (some s) = none)
    ∧ (pyStrip s ≠ nothingToDeployMsg →
      run_migrations_model false true (some s) = some (.calledProcessError s))
    ∧ (pyStrip s = nothingToDeployMsg →
      setup_db_model none false true (some s) = none) := by
  refine ⟨fun h => ?_, fun h => ?_, fun h => ?_⟩ <;>
    simp [run_migrations_model, setup_db_model, h]

/-- Witness for C7: the literal nothing-to-deploy stderr (with a trailing
newline) is swallowed, a genuine failure propagates with its stderr. -/
theorem c7_nothing_to_deploy_swallowed_witness :
    run_migrations_model false true (some "Nothing to deploy (empty plan)\n") = none
    ∧ run_migrations_model false true (some "fatal: deploy failed")
      = some (.calledProcessError "fatal: deploy failed")
    ∧ setup_db_model none false true (some "Nothing to deploy (empty plan)\n") = none :=
  ⟨(c7_nothing_to_deploy_swallowed "Nothing to deploy (empty plan)\n").1 (by decide),
   (c7_nothing_to_deploy_swallowed "fatal: deploy failed").2.1 (by decide),
   (c7_nothing_to_deploy_swallowed "Nothing to deploy (empty plan)\n").2.2 (by decide)⟩

/-- Claim C8: with an absent password both derived strings omit the
credential segment entirely (no colon, no empty marker), and they differ
from the with-password form only by that `":password"` segment. -/
theorem c8_password_absent_omitted (h : Option String) (p : Option Nat) (d : String)
    (u : Option String) (pw : String) (hpw : pw ≠ "") :
    DbConnectionData.conn_string ⟨h, p, d, u, none⟩
        = "postgresql://" ++ pyFStr u ++ "@" ++ pyFStr h ++ ":" ++ pyFNat p ++ "/" ++ d
    ∧ DbConnectionData.sqitch_string ⟨h, p, d, u, none⟩
        = "db:pg://" ++ pyFStr u ++ "@" ++ pyFStr h ++ ":" ++ pyFNat p ++ "/" ++ d
    ∧ DbConnectionData.conn_string ⟨h, p, d, u, some pw⟩
        = "postgresql://" ++ pyFStr u ++ ":" ++ pw ++ "@" ++ pyFStr h ++ ":"
            ++ pyFNat p ++ "/" ++ d
    ∧ DbConnectionData.sqitch_string ⟨h, p, d, u, some pw⟩
        = "db:pg://" ++ pyFStr u ++ ":" ++ pw ++ "@" ++ pyFStr h ++ ":"
            ++ pyFNat p ++ "/" ++ d := by
  have hemp : pw.isEmpty = false := by
    cases hb : pw.isEmpty
    · rfl
    · exact absurd ((String.isEmpty_iff pw).mp hb) hpw
  refine ⟨?_, ?_, ?_, ?_⟩ <;>
    simp [DbConnectionData.conn_string, DbConnectionData.sqitch_string, pyTruthyStr,
      pyFStr, hemp, String.append_assoc]

/-- Witness for C8 at concrete fields. -/
theorem c8_password_absent_omitted_witness :
    DbConnectionData.conn_string ⟨some "h", some 1, "db", some "u", none⟩
      = "postgresql://u@h:1/db"
    ∧ DbConnectionData.sqitch_string ⟨some "h", some 1, "db", some "u", none⟩
      = "db:pg://u@h:1/db"
    ∧ DbConnectionData.conn_string ⟨some "h", some 1, "db", some "u", some "pw"⟩
      = "postgresql://u:pw@h:1/db"
    ∧ DbConnectionData.sqitch_string ⟨some "h", some 1, "db", some "u", some "pw"⟩
      = "db:pg://u:pw@h:1/db" := by
  have h := c8_password_absent_omitted (some "h") (some 1) "db" (some "u") "pw" (by decide)
  exact ⟨h.1.trans (by decide), h.2.1.trans (by decide),
    h.2.2.1.trans (by decide), h.2.2.2.trans (by decide)⟩

/-- Claim C9: when `args.conn_data` is set, `start_k8s_database_main` passes
a `port` keyword argument that `start_k8s_database`'s parameter list does not
contain, so the call raises `TypeError` before the function body runs: no
step is performed and no pod is ever created on this path. -/
theorem c9_start_k8s_conn_port_type_error :
    "port" ∈ start_k8s_database_main_conn_kwargs
    ∧ "port" ∉ start_k8s_database_params
    ∧ start_k8s_database_main_model true = ([], some .typeError)
    ∧ Step.provision ∉ (start_k8s_database_main_model true).1 := by
  decide

/-- Claim C10: an empty-string password is falsy, so `conn_string` and
`sqitch_string` render exactly as with an absent password, and parsing the
resulting URI yields password `None` (not the empty string): the round trip
maps an empty-string password to `none`. -/
theorem c10_empty_password_not_preserved (H U D : String) (n : Nat)
    (hU : U.data.all safeChar = true)
    (hH : H.data.all hostChar = true) (hHne : H.data ≠ [])
    (hD : D.data.all safeChar = true) (hn : n ≤ 65535) :
    (∀ (h : Option String) (p : Option Nat) (d : String) (u : Option String),
      DbConnectionData.conn_string ⟨h, p, d, u, some ""⟩
          = DbConnectionData.conn_string ⟨h, p, d, u, none⟩
      ∧ DbConnectionData.sqitch_string ⟨h, p, d, u, some ""⟩
          = DbConnectionData.sqitch_string ⟨h, p, d, u, none⟩)
    ∧ DbConnectionData.from_conn_string
        (DbConnectionData.conn_string ⟨some H, some n, D, some U, some ""⟩)
      = .ok ⟨some H, some n, D, some U, none⟩
    ∧ DbConnectionData.from_conn_string
        (DbConnectionData.conn_string ⟨some H, some n, D, some U, some ""⟩)
      ≠ .ok ⟨some H, some n, D, some U, some ""⟩ := by
  have hparse := from_conn_string_render_nopw U H D n hU hH hHne hD hn (some "") (by decide)
  have hetr : pyTruthyStr (some "") = false := by decide
  have hetr2 : pyTruthyStr none = false := rfl
  refine ⟨fun h p d u => ⟨?_, ?_⟩, hparse, ?_⟩
  · simp [DbConnectionData.conn_string, hetr, hetr2]
  · simp [DbConnectionData.sqitch_string, hetr, hetr2]
  · rw [hparse]
    simp

/-- Witness for C10 at concrete fields. -/
theorem c10_empty_password_not_preserved_witness :
    DbConnectionData.conn_string ⟨some "x", some 2, "y", some "z", some ""⟩
      = DbConnectionData.conn_string ⟨some "x", some 2, "y", some "z", none⟩
    ∧ DbConnectionData.from_conn_string
        (DbConnectionData.conn_string ⟨some "h", some 1, "db", some "u", some ""⟩)
      = .ok ⟨some "h", some 1, "db", some "u", none⟩ := by
  have h := c10_empty_password_not_preserved "h" "u" "db" 1
    (by decide) (by decide) (by decide) (by decide) (by decide)
  exact ⟨(h.1 (some "x") (some 2) "y" (some "z")).1, h.2.1⟩

end FreenomeBuild
